import Mathlib

/-!
Verification of the Rule & Effect Composition Engine of this
Pokemon-Showdown fork against its natural-language specification.

The repository ships the engine's static configuration (the `Formats`
list and the gen7 item overlay table in `data/mods/gen7/items.js`) and
one collaborator (the icon chat command).  The resolver, dispatcher and
registry themselves are described by the specification; where their code
is not part of the repository snapshot, the definitions below are
modelled from the spec (each such definition says so in its doc
comment).  Code that is present (the berry `onEat` handlers, the
per-format validators, the icon command) is translated directly.
-/

namespace PS

/-! ## Banlist entries

Configuration banlists are lists of strings; the reserved form
`"Allow X"` is a marker that re-permits `X`.  We model the parsed form
as an inductive and keep a parser for the raw configuration strings. -/

/-- A parsed banlist entry: either a ban of a name or the reserved
"Allow X" marker that removes `X` from the accumulated set. -/
inductive BanEntry where
  | ban (x : String)
  | allow (x : String)
deriving DecidableEq, Repr

/-- Parse a raw configuration banlist string: the reserved form
`"Allow X"` becomes an allow-marker for `X`, anything else is a ban. -/
def parseBanEntry (s : String) : BanEntry :=
  if s.toList.take 6 = "Allow ".toList then .allow (String.mk (s.toList.drop 6)) else .ban s

def parseBanlist (l : List String) : List BanEntry :=
  l.map parseBanEntry

/-- Modelled from the spec: a Format is a named RuleFragment — ruleset
references by name plus banlist entries (battle-shape metadata such as
level caps lives in the validation rule set below). -/
structure Format where
  name : String
  ruleset : List String := []
  banlist : List BanEntry := []
deriving DecidableEq, Repr

/-- The loaded configuration: the list of format records, as in
`exports.Formats` of the source. -/
abbrev Config := List Format

def lookupFormat (cfg : Config) (name : String) : Option Format :=
  cfg.find? (fun f => f.name = name)

/-- Modelled from the spec: the three fatal configuration errors
(`UnknownRuleset`, `CyclicRulesetReference`, `UnknownBaseEntity`). -/
inductive ConfigError where
  | UnknownRuleset
  | CyclicRulesetReference
  | UnknownBaseEntity
deriving DecidableEq, Repr

/-- Add a banned name to the accumulated set (kept as a duplicate-free
list in accumulation order). -/
def addBan (acc : List String) (x : String) : List String :=
  if x ∈ acc then acc else acc ++ [x]

/-- Apply one banlist entry to the accumulated set: a ban inserts, an
allow-marker removes the name even if an ancestor inserted it. -/
def applyBanEntry (acc : List String) : BanEntry → List String
  | .ban x => addBan acc x
  | .allow x => acc.filter (fun b => b ≠ x)

/-- Apply a format's banlist entries, in order, to the accumulated set. -/
def applyBanlist (acc : List String) (entries : List BanEntry) : List String :=
  entries.foldl applyBanEntry acc

/-- Union of two accumulated ban sets, left operand first. -/
def unionBans (a b : List String) : List String :=
  b.foldl addBan a

/-- Modelled from the spec: the flattened resolution result — the
banlist as a set and the ordered chain of contributing formats
(ancestors before leaf), which orders hook and validator
contributions. -/
structure ResolvedRuleSet where
  banlist : List String
  chain : List String
deriving DecidableEq, Repr

mutual

/-- Modelled from the spec (the FormatResolver code is not in the
snapshot): depth-first traversal of ruleset-name references, tracking
the visited set of the current path; fails with `CyclicRulesetReference`
on a repeated name and with `UnknownRuleset` on an unresolvable
reference.  Banlists concatenate ancestors-first, leaf-last.  The fuel
argument only bounds recursion; `resolve` below supplies more fuel than
any duplicate-free path can consume. -/
def resolveAux (cfg : Config) (fuel : Nat) (visited : List String) (name : String) :
    Except ConfigError ResolvedRuleSet :=
  match fuel with
  | 0 => .error .CyclicRulesetReference
  | fuel' + 1 =>
    if name ∈ visited then .error .CyclicRulesetReference
    else
      match lookupFormat cfg name with
      | none => .error .UnknownRuleset
      | some f =>
        match resolveRefs cfg fuel' (name :: visited) f.ruleset with
        | .error e => .error e
        | .ok anc =>
          .ok { banlist := applyBanlist anc.banlist f.banlist
                chain := anc.chain ++ [name] }
termination_by (fuel, 0)

/-- Resolve a list of ruleset references in order, accumulating their
banlists (ancestors-first) and contribution chains. -/
def resolveRefs (cfg : Config) (fuel : Nat) (visited : List String) (refs : List String) :
    Except ConfigError ResolvedRuleSet :=
  match refs with
  | [] => .ok { banlist := [], chain := [] }
  | r :: rs =>
    match resolveAux cfg fuel visited r with
    | .error e => .error e
    | .ok rr =>
      match resolveRefs cfg fuel visited rs with
      | .error e => .error e
      | .ok rest =>
        .ok { banlist := unionBans rr.banlist rest.banlist
              chain := rr.chain ++ rest.chain }
termination_by (fuel, refs.length + 1)

end

/-- Modelled from the spec: `resolve(formatName) -> ResolvedRuleSet`.
The fuel `cfg.length + 1` exceeds the length of any duplicate-free
reference path, so the fuel bound is never the reason a well-formed
resolution stops. -/
def resolve (cfg : Config) (name : String) : Except ConfigError ResolvedRuleSet :=
  resolveAux cfg (cfg.length + 1) [] name

/-! ## Memoized resolution -/

/-- The resolution cache, keyed by format name. -/
abbrev ResolveCache := List (String × Except ConfigError ResolvedRuleSet)

def cacheLookup : ResolveCache → String → Option (Except ConfigError ResolvedRuleSet)
  | [], _ => none
  | (k, v) :: t, n => if k = n then some v else cacheLookup t n

/-- Modelled from the spec: the result of `resolve` is memoized by
format name; a cache miss computes and stores, a hit returns the stored
entry. -/
def resolveCached (cfg : Config) (cache : ResolveCache) (name : String) :
    Except ConfigError ResolvedRuleSet × ResolveCache :=
  match cacheLookup cache name with
  | some r => (r, cache)
  | none => (resolve cfg name, (name, resolve cfg name) :: cache)

/-- Modelled from the spec: an explicit configuration reload invalidates
the resolution cache (and nothing else invalidates it). -/
def reloadConfiguration : ResolveCache := []

/-! ## Hook dispatcher: mutate points -/

/-- The mutable context handed through an `onModifyMove`-style mutate
point; `f` is the field the spec's precedence example mutates. -/
structure MoveContext where
  f : Nat
deriving DecidableEq, Repr

/-- The handlers contributing to one mutate lifecycle point, one slot
per precedence level. -/
structure MutateHandlers where
  format : Option (MoveContext → MoveContext) := none
  ability : Option (MoveContext → MoveContext) := none
  item : Option (MoveContext → MoveContext) := none
  moveIntrinsic : Option (MoveContext → MoveContext) := none

def applyHandler (h : Option (MoveContext → MoveContext)) (ctx : MoveContext) : MoveContext :=
  match h with
  | none => ctx
  | some f => f ctx

/-- Modelled from the spec (the HookDispatcher code is not in the
snapshot): at a mutate point the handlers run in the fixed precedence
format > ability > item > move-intrinsic, each receiving the context as
possibly mutated by the previous handler. -/
def dispatchMutate (hs : MutateHandlers) (ctx : MoveContext) : MoveContext :=
  applyHandler hs.moveIntrinsic (applyHandler hs.item (applyHandler hs.ability (applyHandler hs.format ctx)))

/-! ## Hook dispatcher: react points and fault isolation -/

/-- An abstract battle context handed to a react-point handler. -/
abbrev ReactContext := Nat

/-- What one react handler produces when it does not throw: its side
effects and whether it emits the explicit stop signal. -/
structure ReactOutcome where
  effects : List String
  stop : Bool
deriving DecidableEq, Repr

/-- A react-point handler: it may throw (`Except.error` with the
exception message) instead of producing an outcome. -/
abbrev ReactHandler := ReactContext → Except String ReactOutcome

/-- Modelled from the spec (the HookDispatcher code is not in the
snapshot): react handlers run in registration order; a handler that
raises is caught at the dispatch boundary and recorded as a recoverable
fault (paired with the handler's id) and the remaining handlers still
run; an explicit stop signal terminates the remaining handlers.
Returns (recorded faults, accumulated side effects). -/
def dispatchReact (handlers : List (String × ReactHandler)) (ctx : ReactContext) :
    List (String × String) × List String :=
  match handlers with
  | [] => ([], [])
  | (id, h) :: rest =>
    match h ctx with
    | .error e => ((id, e) :: (dispatchReact rest ctx).1, (dispatchReact rest ctx).2)
    | .ok out =>
      if out.stop then ([], out.effects)
      else ((dispatchReact rest ctx).1, out.effects ++ (dispatchReact rest ctx).2)

/-! ## Validation subsystem -/

/-- One team entry, as the validators see it. -/
structure PokemonSet where
  name : String := ""
  species : String
  level : Nat := 100
  moves : List String := []
deriving DecidableEq, Repr

abbrev Team := List PokemonSet

/-- Modelled from the spec: the rule set a validation run works
against — flattened banned names, team-size bounds, level cap,
move-count cap, and the veto-policy validators of the resolved chain. -/
structure RuleSet where
  banlist : List String := []
  minTeamSize : Nat := 1
  maxTeamSize : Nat := 6
  maxLevel : Nat := 100
  maxMoveCount : Nat := 4
  validators : List (Team → List String) := []

/-- Structural check: team size within the variant bounds. -/
def teamSizeProblems (rs : RuleSet) (team : Team) : List String :=
  if team.length < rs.minTeamSize then ["You must bring at least " ++ toString rs.minTeamSize ++ " Pokémon."]
  else if rs.maxTeamSize < team.length then ["You may only bring up to " ++ toString rs.maxTeamSize ++ " Pokémon."]
  else []

/-- Structural check: every level within [1, maxLevel]. -/
def levelProblems (rs : RuleSet) (team : Team) : List String :=
  (team.filter (fun s => s.level < 1 || rs.maxLevel < s.level)).map
    (fun s => s.species ++ " has an illegal level.")

/-- Structural check: move-list length within the cap. -/
def moveCountProblems (rs : RuleSet) (team : Team) : List String :=
  (team.filter (fun s => rs.maxMoveCount < s.moves.length)).map
    (fun s => s.species ++ " has too many moves.")

/-- Check every member against the flattened banlist. -/
def banlistProblems (rs : RuleSet) (team : Team) : List String :=
  (team.filter (fun s => rs.banlist.contains s.species)).map
    (fun s => s.species ++ " is banned.")

/-- Modelled from the spec: `validateTeam(team, ruleSet)` runs every
veto-policy validator of the resolved chain plus the structural checks
and concatenates all results; an empty list means the team is
accepted. -/
def validateTeam (team : Team) (rs : RuleSet) : List String :=
  teamSizeProblems rs team ++ levelProblems rs team ++ moveCountProblems rs team
    ++ banlistProblems rs team
    ++ rs.validators.foldr (fun v acc => v team ++ acc) []

/-- `Formats["Battle Spot Singles"].validateTeam` from the source: a
team of fewer than three Pokémon is rejected (returning no list means
no problems). -/
def battleSpotSinglesValidateTeam (team : Team) : List String :=
  if team.length < 3 then ["You must bring at least three Pokémon."] else []

/-- `Formats["Metronome"].validateTeam` from the source: pushes one
problem per failed check and returns the whole list (team size, then
the lead's level checks; a zero level is falsy in the source and skips
both level checks). -/
def metronomeValidateTeam (team : Team) : List String :=
  let p1 := if 1 < team.length then ["You may only bring one Pokémon."] else []
  match team.head? with
  | none => p1
  | some s0 =>
    let label := if s0.name ≠ "" then s0.name else s0.species
    let p2 := if s0.level ≠ 0 && 100 < s0.level then [label ++ " is higher than level 100."] else []
    let p3 := if s0.level ≠ 0 && s0.level < 100 then [label ++ " is lower than level 100."] else []
    p1 ++ p2 ++ p3

/-! ## Battle participants and the gen7 berry handlers

The `onEat` handlers below are translated from
`data/mods/gen7/items.js`; the battle-runtime helpers they call
(`this.heal`, `pokemon.getNature`, `pokemon.addVolatile`) are not in the
snapshot and are modelled minimally. -/

/-- A battle participant as the berry handlers see it: current and
maximum HP, the stat reduced by its nature (none for a neutral nature),
and its volatile conditions. -/
structure Pokemon where
  maxhp : Nat
  hp : Nat
  natureMinus : Option String := none
  volatiles : List String := []
deriving DecidableEq, Repr

/-- Modelled from the spec: the battle runtime's heal helper is not in
the snapshot; it raises current HP by the given amount, capped at the
maximum. -/
def heal (amount : Nat) (p : Pokemon) : Pokemon :=
  { p with hp := min p.maxhp (p.hp + amount) }

/-- Modelled from the spec: the battle runtime's addVolatile helper is
not in the snapshot; it records the volatile condition if not already
present. -/
def addVolatile (v : String) (p : Pokemon) : Pokemon :=
  if v ∈ p.volatiles then p else { p with volatiles := p.volatiles ++ [v] }

/-- `BattleItems.aguavberry.onEat`: heal half the max HP, confuse if
the nature lowers Special Defense. -/
def aguavberryOnEat (p : Pokemon) : Pokemon :=
  let p := heal (p.maxhp / 2) p
  if p.natureMinus = some "spd" then addVolatile "confusion" p else p

/-- `BattleItems.figyberry.onEat`: heal half the max HP, confuse if the
nature lowers Attack. -/
def figyberryOnEat (p : Pokemon) : Pokemon :=
  let p := heal (p.maxhp / 2) p
  if p.natureMinus = some "atk" then addVolatile "confusion" p else p

/-- `BattleItems.iapapaberry.onEat`: heal half the max HP, confuse if
the nature lowers Defense. -/
def iapapaberryOnEat (p : Pokemon) : Pokemon :=
  let p := heal (p.maxhp / 2) p
  if p.natureMinus = some "def" then addVolatile "confusion" p else p

/-- `BattleItems.magoberry.onEat`: heal half the max HP, confuse if the
nature lowers Speed. -/
def magoberryOnEat (p : Pokemon) : Pokemon :=
  let p := heal (p.maxhp / 2) p
  if p.natureMinus = some "spe" then addVolatile "confusion" p else p

/-- `BattleItems.wikiberry.onEat`: heal half the max HP, confuse if the
nature lowers Special Attack. -/
def wikiberryOnEat (p : Pokemon) : Pokemon :=
  let p := heal (p.maxhp / 2) p
  if p.natureMinus = some "spa" then addVolatile "confusion" p else p

/-! ## Entity registry and inherit-overlays -/

abbrev EatHandler := Pokemon → Pokemon

/-- A concrete (resolved) item record. -/
structure ItemData where
  desc : String := ""
  isNonstandard : Option String := none
  onEat : Option EatHandler := none

/-- An item overlay as written in `data/mods/gen7/items.js`: the
`inherit` flag plus the fields the overlay names.  `isNonstandard` can
be named with the explicit value `null` (`some none`). -/
structure ItemOverlay where
  inherit : Bool := false
  desc : Option String := none
  isNonstandard : Option (Option String) := none
  onEat : Option EatHandler := none

/-- The entity registry of base records, keyed by canonical id. -/
abbrev Registry := List (String × ItemData)

def registryLookup : Registry → String → Option ItemData
  | [], _ => none
  | (k, v) :: t, n => if k = n then some v else registryLookup t n

/-- Modelled from the spec (the EntityRegistry merge code is not in the
snapshot): `resolveOverlay(id, overlay)` produces a new record in which
every field the overlay names has the overlay's value and every other
field keeps the base record's value; it fails with `UnknownBaseEntity`
when the overlay declares inheritance but no base id is registered.
The registry itself is immutable: the function only reads it. -/
def resolveOverlay (reg : Registry) (id : String) (ov : ItemOverlay) :
    Except ConfigError ItemData :=
  if ov.inherit then
    match registryLookup reg id with
    | none => .error .UnknownBaseEntity
    | some base =>
      .ok { desc := ov.desc.getD base.desc
            isNonstandard := ov.isNonstandard.getD base.isNonstandard
            onEat := match ov.onEat with | some h => some h | none => base.onEat }
  else
    .ok { desc := ov.desc.getD ""
          isNonstandard := ov.isNonstandard.getD none
          onEat := ov.onEat }

/-- `BattleItems.aguavberry` from the source: inherits and overrides
the description and the `onEat` handler. -/
def aguavberryOverlay : ItemOverlay :=
  { inherit := true
    desc := some "Restores 1/2 max HP at 1/4 max HP or less; confuses if -SpD Nature. Single use."
    onEat := some aguavberryOnEat }

/-- `BattleItems.abomasite` from the source: inherits and overrides
only the `isNonstandard` marker with the explicit value `null`. -/
def abomasiteOverlay : ItemOverlay :=
  { inherit := true
    isNonstandard := some none }

/-! ## The icon chat command

Translated from the unnamed server plugin: the in-memory `icons`
mapping, the persisted `config/icons.json` contents and the generated
custom CSS are modelled as one state record.  CSS generation walks the
live room list, which is outside the snapshot, so the generator is a
parameter `gen`.  Reply texts follow the source with apostrophes
elided. -/

/-- JavaScript `String.prototype.split(",")`, character by character. -/
def splitCommaAux : List Char → List Char → List String
  | [], acc => [String.mk acc.reverse]
  | c :: rest, acc =>
    if c = ',' then String.mk acc.reverse :: splitCommaAux rest []
    else splitCommaAux rest (c :: acc)

def splitComma (s : String) : List String :=
  splitCommaAux s.toList []

/-- JavaScript `String.prototype.trim()`: strip whitespace from both
ends. -/
def jsTrim (s : String) : String :=
  String.mk (((s.toList.dropWhile Char.isWhitespace).reverse.dropWhile Char.isWhitespace).reverse)

/-- `toID` (`Dex.getId`): lowercase and strip every character that is
not a lowercase letter or digit. -/
def toID (s : String) : String :=
  String.mk ((s.toList.map Char.toLower).filter (fun c => c.isLower || c.isDigit))

/-- The icon subsystem state: the in-memory mapping, the persisted
`icons.json` mapping, and the generated custom CSS. -/
structure IconState where
  icons : List (String × String)
  fileIcons : List (String × String)
  css : String
deriving DecidableEq, Repr

/-- How one `/icon` invocation ends. -/
inductive IconReply where
  | permissionDenied
  | helpReply
  | errorReply (msg : String)
  | successReply (msg : String)
deriving DecidableEq, Repr

def iconLookup : List (String × String) → String → Option String
  | [], _ => none
  | (k, v) :: t, n => if k = n then some v else iconLookup t n

/-- The icon stored for a user id, with JavaScript truthiness: a
missing entry reads as the empty (falsy) string. -/
def iconValue (s : IconState) (k : String) : String :=
  (iconLookup s.icons k).getD ""

/-- `updateIcons` from the source: persist the mapping to `icons.json`
and regenerate the icon section of the custom CSS from the mapping. -/
def updateIcons (gen : List (String × String) → String) (s : IconState) : IconState :=
  { icons := s.icons, fileIcons := s.icons, css := gen s.icons }

/-- `commands.icon` from the source: permission check, split the
argument on commas and trim, then help/error/delete/set exactly in the
source's branch order.  Only the two success paths touch the state, and
both do so through `updateIcons`. -/
def iconCommand (gen : List (String × String) → String) (canPban : Bool)
    (s : IconState) (target : String) : IconState × IconReply :=
  if !canPban then (s, .permissionDenied)
  else
    let parts := (splitComma target).map jsTrim
    let t0 := parts.getD 0 ""
    let t1 := parts.getD 1 ""
    if t1 = "" then (s, .helpReply)
    else if 19 < (toID t0).length then (s, .errorReply "Usernames are not this long...")
    else if t1 = "delete" then
      if iconValue s (toID t0) = "" then
        (s, .errorReply ("/icon - " ++ t0 ++ " does not have an icon."))
      else
        let s1 := { s with icons := s.icons.filter (fun p => p.1 ≠ toID t0) }
        (updateIcons gen s1, .successReply ("You removed the icon of " ++ t0 ++ "."))
    else if toID t0 = "delete" then
      (s, .errorReply ("Did you mean: /icon " ++ t1 ++ ", delete"))
    else if iconValue s (toID t0) ≠ "" then
      (s, .errorReply "This user already has a custom userlist icon.")
    else
      let s1 := { s with icons := (toID t0, t1) :: s.icons }
      (updateIcons gen s1, .successReply ("You have given " ++ t0 ++ " an icon."))

/-! ## Concrete configuration slices

Embedded from `exports.Formats` in the source (banlists parsed with
`parseBanlist`), plus the two-format inheritance example of the spec
and a cyclic configuration for the cycle-detection witness. -/

/-- `Formats["CAP"]` from the source: inherits OU and re-permits CAP
species through the reserved allow-marker. -/
def capFormat : Format :=
  { name := "CAP", ruleset := ["OU"], banlist := parseBanlist ["Allow CAP"] }

/-- `Formats["NU Monotype"]` from the source: its ruleset references
"RU (beta)", a name no format or fragment of the configuration
carries. -/
def nuMonotypeFormat : Format :=
  { name := "NU Monotype", ruleset := ["RU (beta)", "Same Type Clause"]
    banlist := parseBanlist ["RU", "BL3"] }

/-- The Monotype section of `exports.Formats`, names and ruleset
references as in the source. -/
def monotypeSection : Config :=
  [ { name := "Monotype"
      ruleset := ["Pokemon", "Standard", "Baton Pass Clause", "Swagger Clause", "Same Type Clause", "Team Preview"]
      banlist := parseBanlist ["Arceus", "Blaziken", "Darkrai", "Deoxys", "Deoxys-Attack", "Dialga",
        "Giratina", "Giratina-Origin", "Groudon", "Ho-Oh", "Kyogre", "Lugia", "Mewtwo", "Palkia",
        "Rayquaza", "Reshiram", "Talonflame", "Xerneas", "Yveltal", "Zekrom", "Gengarite",
        "Kangaskhanite", "Lucarionite", "Salamencite", "Soul Dew"] }
  , { name := "Random Monotype", ruleset := ["Pokemon", "Sleep Clause Mod", "HP Percentage Mod"] }
  , { name := "Ubers Monotype", ruleset := ["Pokemon", "Standard Ubers", "Same Type Clause"] }
  , { name := "UU Monotype", ruleset := ["OU", "Same Type Clause"]
      banlist := parseBanlist ["OU", "BL", "Heracronite", "Medichamite", "Gardevoirite", "Drizzle", "Drought"] }
  , { name := "RU Monotype", ruleset := ["UU", "Same Type Clause"], banlist := parseBanlist ["UU", "BL2"] }
  , nuMonotypeFormat
  , { name := "LC Monotype", ruleset := ["Pokemon", "Standard", "Little Cup", "Same Type Clause"]
      banlist := parseBanlist ["Dragon Rage", "Sonic Boom", "Swagger", "LC Uber", "Gligar"] } ]

/-- The spec's inheritance example: Format A bans "X"; Format B
references A and carries the banlist ["Allow X", "Y"]. -/
def allowExampleConfig : Config :=
  [ { name := "A", banlist := parseBanlist ["X"] }
  , { name := "B", ruleset := ["A"], banlist := parseBanlist ["Allow X", "Y"] } ]

/-- The spec's cycle example: A references B and B references A. -/
def cycleExampleConfig : Config :=
  [ { name := "A", ruleset := ["B"] }
  , { name := "B", ruleset := ["A"] } ]

/-! ## Concrete records and inputs used by the witnesses -/

/-- A representative base record for the Aguav Berry (the base item
table itself is not in the snapshot). -/
def aguavberryBase : ItemData :=
  { desc := "Restores HP in a pinch.", isNonstandard := none, onEat := none }

/-- A representative base record for the Abomasite: marked
nonstandard in the base table, which the gen7 overlay clears. -/
def abomasiteBase : ItemData :=
  { desc := "Mega-evolves Abomasnow.", isNonstandard := some "Past", onEat := none }

def demoRegistry : Registry :=
  [("aguavberry", aguavberryBase), ("abomasite", abomasiteBase)]

/-- The expected behaviour of one gen7 pinch-berry `onEat` handler:
heal exactly half of the maximum HP, keep every other field, and add
the confusion volatile exactly when the nature reduces the given
stat. -/
def pinchBerryBehavior (onEat : Pokemon → Pokemon) (stat : String) (p : Pokemon) : Prop :=
  (onEat p).hp = p.hp + p.maxhp / 2 ∧
  (onEat p).maxhp = p.maxhp ∧
  (onEat p).natureMinus = p.natureMinus ∧
  (onEat p).volatiles =
    (if p.natureMinus = some stat then p.volatiles ++ ["confusion"] else p.volatiles)

/-- A mutate-point handler table holding exactly the spec's precedence
example: the format handler sets F to 1, the held item's handler
increments F. -/
def precedenceExampleHandlers : MutateHandlers :=
  { format := some (fun c => { c with f := 1 })
    item := some (fun c => { c with f := c.f + 1 }) }

/-- A react handler that throws, the way the 350 Cup `validateSet`
does when it reaches the `sum` helper that does not exist. -/
def throwingHandler : ReactHandler :=
  fun _ => .error "this.sum is not a function"

/-- An independent react handler producing a side effect. -/
def boostingHandler : ReactHandler :=
  fun _ => .ok { effects := ["boost"], stop := false }

/-- The rule set of the veto-aggregation witness: the default
structural bounds, one banned species, and the Battle Spot Singles
validator from the source in the resolved chain. -/
def vetoWitnessRuleSet : RuleSet :=
  { banlist := ["mewtwo"], validators := [battleSpotSinglesValidateTeam] }

/-- A team of seven, one of which is the banned species. -/
def vetoWitnessTeam : Team :=
  [ { species := "pikachu" }, { species := "eevee" }, { species := "mew" }
  , { species := "snorlax" }, { species := "gengar" }, { species := "lapras" }
  , { species := "mewtwo" } ]

/-- An icon subsystem state with one stored icon. -/
def demoIconState : IconState :=
  { icons := [("bob", "http(url)")], fileIcons := [("bob", "http(url)")], css := "old" }

/-- A concrete CSS generator standing in for the room-list walk. -/
def demoCssGen (l : List (String × String)) : String :=
  toString l.length

/-! ## Unfolding lemmas for the resolver -/

theorem resolveAux_zero (cfg : Config) (visited : List String) (name : String) :
    resolveAux cfg 0 visited name = .error .CyclicRulesetReference := by
  rw [resolveAux]

theorem resolveAux_succ (cfg : Config) (fuel : Nat) (visited : List String) (name : String) :
    resolveAux cfg (fuel + 1) visited name =
      if name ∈ visited then .error .CyclicRulesetReference
      else
        match lookupFormat cfg name with
        | none => .error .UnknownRuleset
        | some f =>
          match resolveRefs cfg fuel (name :: visited) f.ruleset with
          | .error e => .error e
          | .ok anc =>
            .ok { banlist := applyBanlist anc.banlist f.banlist
                  chain := anc.chain ++ [name] } := by
  rw [resolveAux]

theorem resolveRefs_nil (cfg : Config) (fuel : Nat) (visited : List String) :
    resolveRefs cfg fuel visited [] = .ok { banlist := [], chain := [] } := by
  rw [resolveRefs]

theorem resolveRefs_cons (cfg : Config) (fuel : Nat) (visited : List String)
    (r : String) (rs : List String) :
    resolveRefs cfg fuel visited (r :: rs) =
      match resolveAux cfg fuel visited r with
      | .error e => .error e
      | .ok rr =>
        match resolveRefs cfg fuel visited rs with
        | .error e => .error e
        | .ok rest =>
          .ok { banlist := unionBans rr.banlist rest.banlist
                chain := rr.chain ++ rest.chain } := by
  rw [resolveRefs]

/-! ## Claims about the format resolver -/

/-- Claim C1: when format A bans X, and format B references A while
carrying the banlist ["Allow X", "Y"], `resolve "B"` succeeds and its
flattened banlist is exactly the set containing Y: entries accumulate
ancestors-first and leaf-last, and the leaf-level allow-marker removes
X even though the ancestor banned it. -/
theorem resolve_allow_overrides_ancestor_ban
    (cfg : Config) (a b x y : String) (fa fb : Format) (hab : a ≠ b)
    (ha : lookupFormat cfg a = some fa) (hb : lookupFormat cfg b = some fb)
    (hra : fa.ruleset = []) (hfab : fa.banlist = [.ban x])
    (hrb : fb.ruleset = [a]) (hfbb : fb.banlist = [.allow x, .ban y]) :
    resolve cfg b = .ok { banlist := [y], chain := [a, b] } := by
  obtain ⟨L, hL⟩ : ∃ L, cfg.length = L + 1 := by
    cases cfg with
    | nil => simp [lookupFormat] at hb
    | cons f t => exact ⟨t.length, rfl⟩
  unfold resolve
  rw [resolveAux_succ, if_neg (List.not_mem_nil b), hb]
  simp only []
  rw [hrb, resolveRefs_cons, hL, resolveAux_succ,
    if_neg (by simp only [List.mem_singleton]; exact hab : ¬ a ∈ [b]), ha]
  simp only [hra, resolveRefs_nil, hfab, hfbb, applyBanlist, List.foldl,
    applyBanEntry, addBan, List.not_mem_nil, if_false, List.nil_append,
    unionBans, List.filter, decide_eq_true_eq]
  simp [List.filter_eq_nil_iff]

/-- Claim C1, witness: the spec's two-format example evaluates as the
theorem states. -/
theorem resolve_allow_overrides_ancestor_ban_witness :
    resolve allowExampleConfig "B" = .ok { banlist := ["Y"], chain := ["A", "B"] } :=
  resolve_allow_overrides_ancestor_ban allowExampleConfig "A" "B" "X" "Y"
    { name := "A", banlist := parseBanlist ["X"] }
    { name := "B", ruleset := ["A"], banlist := parseBanlist ["Allow X", "Y"] }
    (by decide) (by decide) (by decide) (by decide) (by decide) (by decide) (by decide)

/-- Claim C3: a format whose ruleset-reference graph contains a cycle
(A references B and B references A) resolves to the fatal
`CyclicRulesetReference` error: the depth-first traversal tracks the
visited names of the current path and fails on a repeat rather than
looping (`resolve` is a total function, so termination is inherent). -/
theorem resolve_cycle_detected
    (cfg : Config) (a b : String) (fa fb : Format)
    (ha : lookupFormat cfg a = some fa) (hb : lookupFormat cfg b = some fb)
    (hra : fa.ruleset = [b]) (hrb : fb.ruleset = [a]) :
    resolve cfg a = .error .CyclicRulesetReference := by
  have key : ∀ fuel visited,
      resolveAux cfg fuel visited a = .error .CyclicRulesetReference ∧
      resolveAux cfg fuel visited b = .error .CyclicRulesetReference := by
    intro fuel
    induction fuel using Nat.strong_induction_on with
    | _ fuel IH =>
      intro visited
      cases fuel with
      | zero => exact ⟨resolveAux_zero cfg visited a, resolveAux_zero cfg visited b⟩
      | succ g =>
        constructor
        · rw [resolveAux_succ]
          by_cases hv : a ∈ visited
          · rw [if_pos hv]
          · rw [if_neg hv, ha]
            simp only [hra, resolveRefs_cons, (IH g (Nat.lt_succ_self g) (a :: visited)).2]
        · rw [resolveAux_succ]
          by_cases hv : b ∈ visited
          · rw [if_pos hv]
          · rw [if_neg hv, hb]
            simp only [hrb, resolveRefs_cons, (IH g (Nat.lt_succ_self g) (b :: visited)).1]
  exact (key (cfg.length + 1) []).1

/-- Claim C3, witness: the two-format cycle configuration fails with
`CyclicRulesetReference`. -/
theorem resolve_cycle_detected_witness :
    resolve cycleExampleConfig "A" = .error .CyclicRulesetReference :=
  resolve_cycle_detected cycleExampleConfig "A" "B"
    { name := "A", ruleset := ["B"] } { name := "B", ruleset := ["A"] }
    (by decide) (by decide) (by decide) (by decide)

/-- Claim C7: a format whose ruleset references a name for which no
format or rule fragment exists (and which is not the format itself)
resolves to the fatal `UnknownRuleset` error; the format therefore
stays unusable until the configuration is fixed. -/
theorem resolve_unknown_ruleset
    (cfg : Config) (name r : String) (rs : List String) (f : Format)
    (hf : lookupFormat cfg name = some f)
    (hruleset : f.ruleset = r :: rs)
    (hrn : r ≠ name)
    (hr : lookupFormat cfg r = none) :
    resolve cfg name = .error .UnknownRuleset := by
  obtain ⟨L, hL⟩ : ∃ L, cfg.length = L + 1 := by
    cases cfg with
    | nil => simp [lookupFormat] at hf
    | cons g t => exact ⟨t.length, rfl⟩
  unfold resolve
  rw [resolveAux_succ, if_neg (List.not_mem_nil name), hf]
  simp only [hruleset, resolveRefs_cons]
  rw [hL, resolveAux_succ,
    if_neg (by simp only [List.mem_singleton]; exact hrn : ¬ r ∈ [name]), hr]

/-- Claim C7, witness: the configured "NU Monotype" format references
"RU (beta)", which no format of the Monotype configuration carries, so
its resolution fails with `UnknownRuleset`. -/
theorem resolve_unknown_ruleset_witness :
    resolve monotypeSection "NU Monotype" = .error .UnknownRuleset :=
  resolve_unknown_ruleset monotypeSection "NU Monotype" "RU (beta)"
    ["Same Type Clause"] nuMonotypeFormat (by decide) (by decide) (by decide) (by decide)

/-- Claim C8: with no configuration reload in between, two
`resolve(name)` calls through the cache return equal ResolvedRuleSets;
resolution is a pure function of the static configuration, the result
is memoized by format name, and a consistent cache always answers with
`resolve cfg name` itself. -/
theorem resolve_memoized_idempotent
    (cfg : Config) (cache : ResolveCache) (name : String)
    (hc : ∀ n res, cacheLookup cache n = some res → res = resolve cfg n) :
    (resolveCached cfg cache name).1 = resolve cfg name ∧
    (resolveCached cfg (resolveCached cfg cache name).2 name).1 =
      (resolveCached cfg cache name).1 := by
  cases h : cacheLookup cache name with
  | none =>
    refine ⟨?_, ?_⟩ <;> simp [resolveCached, h, cacheLookup]
  | some res =>
    have hres := hc name res h
    refine ⟨?_, ?_⟩ <;> simp [resolveCached, h, hres]

/-- Claim C8, witness: starting from the freshly reloaded (empty)
cache, the cached resolution of "Monotype" is the pure resolution and
a repeated call returns the same result. -/
theorem resolve_memoized_idempotent_witness :
    (resolveCached monotypeSection reloadConfiguration "Monotype").1 =
      resolve monotypeSection "Monotype" ∧
    (resolveCached monotypeSection
        (resolveCached monotypeSection reloadConfiguration "Monotype").2 "Monotype").1 =
      (resolveCached monotypeSection reloadConfiguration "Monotype").1 :=
  resolve_memoized_idempotent monotypeSection reloadConfiguration "Monotype"
    (by intro n res h; simp [reloadConfiguration, cacheLookup] at h)

/-! ## Claims about the hook dispatcher -/

/-- Claim C5: at a mutate lifecycle point the handlers run in the
fixed precedence format > ability > item > move-intrinsic, each
receiving the context as mutated by the previous handler; so a format
handler setting F to 1 followed by the held item's handler
incrementing F yields F = 2 deterministically. -/
theorem dispatchMutate_precedence
    (hs : MutateHandlers) (ctx : MoveContext)
    (hf : hs.format = some (fun c => { c with f := 1 }))
    (hi : hs.item = some (fun c => { c with f := c.f + 1 }))
    (ha : hs.ability = none) (hm : hs.moveIntrinsic = none) :
    (dispatchMutate hs ctx).f = 2 := by
  simp [dispatchMutate, applyHandler, hf, hi, ha, hm]

/-- Claim C5, witness: the example handler table yields F = 2 from any
starting value, here 7. -/
theorem dispatchMutate_precedence_witness :
    (dispatchMutate precedenceExampleHandlers { f := 7 }).f = 2 :=
  dispatchMutate_precedence precedenceExampleHandlers { f := 7 } rfl rfl rfl rfl

/-- Claim C6: a handler that raises is caught at the dispatch boundary
and recorded as a recoverable fault, and every remaining handler of the
point still runs with its effects intact: inserting a throwing handler
anywhere after the non-stopping part of the chain leaves the
accumulated side effects unchanged and adds exactly its fault record. -/
theorem dispatchReact_fault_isolated
    (pre post : List (String × ReactHandler)) (tid e : String)
    (th : ReactHandler) (ctx : ReactContext)
    (hpre : ∀ p ∈ pre, ∃ out, p.2 ctx = .ok out ∧ out.stop = false)
    (hth : th ctx = .error e) :
    (dispatchReact (pre ++ (tid, th) :: post) ctx).2 = (dispatchReact (pre ++ post) ctx).2 ∧
    (tid, e) ∈ (dispatchReact (pre ++ (tid, th) :: post) ctx).1 := by
  induction pre with
  | nil => simp [dispatchReact, hth]
  | cons p t IH =>
    obtain ⟨pid, ph⟩ := p
    obtain ⟨out, hok, hstop⟩ := hpre (pid, ph) (List.mem_cons_self _ t)
    have hok2 : ph ctx = Except.ok out := hok
    have IH2 := IH (fun q hq => hpre q (List.mem_cons_of_mem _ hq))
    constructor
    · simp only [List.cons_append, dispatchReact, hok2, hstop, Bool.false_eq_true,
        if_false]
      exact congrArg (fun l => out.effects ++ l) IH2.1
    · simp only [List.cons_append, dispatchReact, hok2, hstop, Bool.false_eq_true,
        if_false]
      exact IH2.2

/-- Claim C6, witness: a throwing validator followed by an independent
effectful handler — the fault is recorded and the second handler's
effect survives. -/
theorem dispatchReact_fault_isolated_witness :
    (dispatchReact [("cup350", throwingHandler), ("rival", boostingHandler)] 0).2 =
      (dispatchReact [("rival", boostingHandler)] 0).2 ∧
    ("cup350", "this.sum is not a function") ∈
      (dispatchReact [("cup350", throwingHandler), ("rival", boostingHandler)] 0).1 :=
  dispatchReact_fault_isolated [] [("rival", boostingHandler)] "cup350"
    "this.sum is not a function" throwingHandler 0
    (by intro p hp; simp at hp) rfl

/-! ## Claims about the validation subsystem -/

theorem foldr_validators_empty (team : Team) :
    ∀ l : List (Team → List String), (∀ v ∈ l, v team = []) →
      l.foldr (fun v acc => v team ++ acc) [] = [] := by
  intro l
  induction l with
  | nil => intro _; rfl
  | cons v t IH =>
    intro h
    simp only [List.foldr, h v (List.mem_cons_self v t),
      IH (fun w hw => h w (List.mem_cons_of_mem v hw)), List.nil_append]

/-- Claim C4: `validateTeam` concatenates the results of every
veto-policy validator of the resolved chain and the structural checks;
a team that is oversized and contains exactly one banned species (and
is otherwise fine) yields exactly two problem entries, not just the
first problem. -/
theorem validateTeam_veto_aggregation
    (rs : RuleSet) (team : Team)
    (hminmax : rs.minTeamSize ≤ rs.maxTeamSize)
    (hover : rs.maxTeamSize < team.length)
    (hban : (team.filter (fun s => rs.banlist.contains s.species)).length = 1)
    (hlevel : ∀ s ∈ team, 1 ≤ s.level ∧ s.level ≤ rs.maxLevel)
    (hmoves : ∀ s ∈ team, s.moves.length ≤ rs.maxMoveCount)
    (hvals : ∀ v ∈ rs.validators, v team = []) :
    (validateTeam team rs).length = 2 := by
  have hsize : teamSizeProblems rs team =
      ["You may only bring up to " ++ toString rs.maxTeamSize ++ " Pokémon."] := by
    unfold teamSizeProblems
    rw [if_neg (by omega), if_pos hover]
  have hlv : levelProblems rs team = [] := by
    unfold levelProblems
    rw [List.filter_eq_nil_iff.mpr ?_, List.map_nil]
    intro s hs
    have := hlevel s hs
    simp only [Bool.or_eq_true, decide_eq_true_eq, not_or]
    omega
  have hmc : moveCountProblems rs team = [] := by
    unfold moveCountProblems
    rw [List.filter_eq_nil_iff.mpr ?_, List.map_nil]
    intro s hs
    have := hmoves s hs
    simp only [decide_eq_true_eq]
    omega
  have hbp : (banlistProblems rs team).length = 1 := by
    unfold banlistProblems
    rw [List.length_map]
    exact hban
  have hfold := foldr_validators_empty team rs.validators hvals
  unfold validateTeam
  rw [hsize, hlv, hmc, hfold]
  simp [hbp]

/-- Claim C4, witness: a team of seven containing one banned species,
checked against the default bounds plus the Battle Spot Singles
validator from the source, yields exactly two problems. -/
theorem validateTeam_veto_aggregation_witness :
    (validateTeam vetoWitnessTeam vetoWitnessRuleSet).length = 2 :=
  validateTeam_veto_aggregation vetoWitnessRuleSet vetoWitnessTeam
    (by decide) (by decide) (by decide) (by decide) (by decide)
    (by
      intro v hv
      simp only [vetoWitnessRuleSet, List.mem_singleton] at hv
      subst hv
      decide)

/-! ## Claims about the entity registry -/

/-- Claim C2: `resolveOverlay` on an overlay that declares inheritance
produces a new record in which every field the overlay names
(including the `onEat` handler and the nullable `isNonstandard`
marker) has the overlay's value and every field it does not name keeps
the base record's value; it fails with `UnknownBaseEntity` exactly
when no base record is registered under the id.  The registry is only
read, never modified. -/
theorem resolveOverlay_inherit_merge
    (reg : Registry) (id : String) (ov : ItemOverlay) (base : ItemData)
    (hinh : ov.inherit = true)
    (hbase : registryLookup reg id = some base) :
    (∃ merged, resolveOverlay reg id ov = .ok merged ∧
      (∀ d, ov.desc = some d → merged.desc = d) ∧
      (ov.desc = none → merged.desc = base.desc) ∧
      (∀ v, ov.isNonstandard = some v → merged.isNonstandard = v) ∧
      (ov.isNonstandard = none → merged.isNonstandard = base.isNonstandard) ∧
      (∀ h, ov.onEat = some h → merged.onEat = some h) ∧
      (ov.onEat = none → merged.onEat = base.onEat)) ∧
    (∀ reg2 : Registry, registryLookup reg2 id = none →
      resolveOverlay reg2 id ov = .error .UnknownBaseEntity) := by
  have heq : resolveOverlay reg id ov =
      .ok { desc := ov.desc.getD base.desc
            isNonstandard := ov.isNonstandard.getD base.isNonstandard
            onEat := match ov.onEat with | some h => some h | none => base.onEat } := by
    simp [resolveOverlay, hinh, hbase]
  refine ⟨⟨_, heq, ?_, ?_, ?_, ?_, ?_, ?_⟩, ?_⟩
  · intro d hd; simp [hd]
  · intro hd; simp [hd]
  · intro v hv; simp [hv]
  · intro hv; simp [hv]
  · intro h hh; simp [hh]
  · intro hh; simp [hh]
  · intro reg2 h2; simp [resolveOverlay, hinh, h2]

/-- Claim C2, witness: the source's `abomasite` overlay over a
registered base — the named `isNonstandard := null` field takes the
overlay's value, the unnamed fields keep the base's, and the same
overlay fails with `UnknownBaseEntity` on any registry lacking the
id. -/
theorem resolveOverlay_inherit_merge_witness :
    (∃ merged, resolveOverlay demoRegistry "abomasite" abomasiteOverlay = .ok merged ∧
      (∀ d, abomasiteOverlay.desc = some d → merged.desc = d) ∧
      (abomasiteOverlay.desc = none → merged.desc = abomasiteBase.desc) ∧
      (∀ v, abomasiteOverlay.isNonstandard = some v → merged.isNonstandard = v) ∧
      (abomasiteOverlay.isNonstandard = none →
        merged.isNonstandard = abomasiteBase.isNonstandard) ∧
      (∀ h, abomasiteOverlay.onEat = some h → merged.onEat = some h) ∧
      (abomasiteOverlay.onEat = none → merged.onEat = abomasiteBase.onEat)) ∧
    (∀ reg2 : Registry, registryLookup reg2 "abomasite" = none →
      resolveOverlay reg2 "abomasite" abomasiteOverlay = .error .UnknownBaseEntity) :=
  resolveOverlay_inherit_merge demoRegistry "abomasite" abomasiteOverlay abomasiteBase
    rfl (by simp [demoRegistry, registryLookup])

/-! ## Claims about the gen7 berry handlers -/

/-- Claim C9: each of the five gen7 pinch berries heals the eater by
exactly half of its maximum HP (the eater has room to heal, as it does
at the at-or-below-quarter trigger point) and adds the confusion
volatile exactly when the eater's nature reduces, respectively,
SpD, Atk, Def, Spe or SpA; otherwise nothing but the HP changes. -/
theorem gen7_pinch_berries_onEat
    (p : Pokemon)
    (hroom : p.hp + p.maxhp / 2 ≤ p.maxhp)
    (hnoconf : "confusion" ∉ p.volatiles) :
    pinchBerryBehavior aguavberryOnEat "spd" p ∧
    pinchBerryBehavior figyberryOnEat "atk" p ∧
    pinchBerryBehavior iapapaberryOnEat "def" p ∧
    pinchBerryBehavior magoberryOnEat "spe" p ∧
    pinchBerryBehavior wikiberryOnEat "spa" p := by
  have gen : ∀ stat : String,
      pinchBerryBehavior
        (fun q =>
          let q2 := heal (q.maxhp / 2) q
          if q2.natureMinus = some stat then addVolatile "confusion" q2 else q2)
        stat p := by
    intro stat
    unfold pinchBerryBehavior heal addVolatile
    by_cases hn : p.natureMinus = some stat <;>
      simp [hn, Nat.min_eq_right hroom, hnoconf]
  exact ⟨gen "spd", gen "atk", gen "def", gen "spe", gen "spa"⟩

/-- Claim C9, witness: a Pokémon with a minus-Attack nature at 10/40 HP
eating a Figy Berry ends at 30/40 HP with confusion added. -/
theorem gen7_pinch_berries_onEat_witness :
    pinchBerryBehavior figyberryOnEat "atk"
      { maxhp := 40, hp := 10, natureMinus := some "atk", volatiles := [] } :=
  (gen7_pinch_berries_onEat
    { maxhp := 40, hp := 10, natureMinus := some "atk", volatiles := [] }
    (by decide) (by decide)).2.1

/-! ## Claims about the icon chat command -/

/-- Claim C10: every `/icon` invocation that ends in an error or help
reply (missing second argument, over-long id-normalized name, deleting
a target without an icon, delete given as the target, or setting an
icon the target already has) leaves the state — in-memory mapping,
persisted file and generated CSS — unchanged; on the two success paths
the persisted file equals the new mapping and the CSS is regenerated
from it. -/
theorem iconCommand_state_discipline
    (gen : List (String × String) → String) (canPban : Bool)
    (s : IconState) (target : String) :
    ((∃ m, (iconCommand gen canPban s target).2 = .errorReply m) ∨
        (iconCommand gen canPban s target).2 = .helpReply ∨
        (iconCommand gen canPban s target).2 = .permissionDenied →
      (iconCommand gen canPban s target).1 = s) ∧
    ((∃ m, (iconCommand gen canPban s target).2 = .successReply m) →
      (iconCommand gen canPban s target).1.fileIcons =
          (iconCommand gen canPban s target).1.icons ∧
        (iconCommand gen canPban s target).1.css =
          gen (iconCommand gen canPban s target).1.icons) := by
  simp only [iconCommand]
  repeat' split
  all_goals refine ⟨?_, ?_⟩
  all_goals
    first
      | exact fun _ => rfl
      | exact fun _ => ⟨rfl, rfl⟩
      | (rintro (⟨m, hm⟩ | hm | hm) <;> simp_all)

/-- Claim C10, witness: asking to delete an icon a user does not have
is an error reply and leaves the state untouched. -/
theorem iconCommand_state_discipline_witness :
    (iconCommand demoCssGen true demoIconState "alice, delete").1 = demoIconState :=
  (iconCommand_state_discipline demoCssGen true demoIconState "alice, delete").1
    (Or.inl ⟨"/icon - alice does not have an icon.", by decide⟩)

end PS
